import Mathlib

/-!
Shallow embedding of the real-time core of the `cpl_backend` repository:
the WebSocket connection registry (`app/websockets/manager.py`), the
collectible claim engine (`app/services/collectible_service.py`), the room
authorization evaluator (`app/middleware/room_authorization.py`) and the
login rate limiter (`app/middleware/rate_limiter.py`).

Modelling conventions:
* Python `dict`s (insertion ordered, unique keys) are association lists
  `List (String × β)`; assignment replaces the first matching key in place
  (keeping its position, as CPython does) and otherwise appends; deletion
  removes the key.  Python `set`s are lists without duplicates; removal
  drops every occurrence so that the embedding agrees with set semantics on
  every representable state.
* Wall-clock readings (`datetime.now()`, `time.time()`) are integers passed
  explicitly to each operation.
* Coordinates and distances are rationals; WebSocket handles are naturals.
-/

/-- Python dict assignment `d[k] = v`: replace the first binding of `k` in
place, otherwise append the new binding at the end. -/
def aset {β : Type} (k : String) (v : β) : List (String × β) → List (String × β)
  | [] => [(k, v)]
  | (k', v') :: rest => if k' = k then (k, v) :: rest else (k', v') :: aset k v rest

/-- Python dict deletion `del d[k]` (no-op when the key is absent, matching
the guarded `if k in d: del d[k]` uses in the source). -/
def aremove {β : Type} (k : String) (l : List (String × β)) : List (String × β) :=
  l.filter (fun p => p.1 ≠ k)

/-- Python `set.add`: append the element unless already present. -/
def sadd (u : String) (ms : List String) : List String :=
  if u ∈ ms then ms else ms ++ [u]

/-- Python `set.discard` / guarded `set.remove`: drop the element. -/
def sremove (u : String) (ms : List String) : List String :=
  ms.filter (fun v => v ≠ u)

/-- The `UserLocation` dataclass of `app/websockets/manager.py`:
coordinates are `(lng, lat)`, the timestamp is the server clock reading
taken when the update was applied. -/
structure UserLocation where
  user_id : String
  coordinates : ℚ × ℚ
  timestamp : ℤ
  accuracy : Option ℚ := none
  speed : Option ℚ := none
  heading : Option ℚ := none
deriving DecidableEq, Repr

/-- The mutable state of `ConnectionManager`: live connections, event
participant sets and last-known locations. -/
structure ManagerState where
  active_connections : List (String × ℕ) := []
  event_participants : List (String × List String) := []
  user_locations : List (String × UserLocation) := []
deriving DecidableEq, Repr

/-- The empty registry, as built by `ConnectionManager.__init__`. -/
def mEmpty : ManagerState := {}

/-- `ConnectionManager.connect`: accepts the socket and stores it under the
user's key.  Note that the source stores unconditionally — an existing
registration under the same key is silently overwritten and no duplicate
condition is reported (the method returns nothing). -/
def connect (s : ManagerState) (user_id : String) (ws : ℕ) : ManagerState :=
  { s with active_connections := aset user_id ws s.active_connections }

/-- Modelled from the spec: the contract of section 4.1 for `connect`,
which is absent from the source — `connect(sessionKey, transport)` should
fail with `DuplicateSession` when the key is already active.  Used only to
compare the specified behaviour with the source's `connect`. -/
def connectSpec (s : ManagerState) (user_id : String) (ws : ℕ) :
    Option ManagerState :=
  if (List.lookup user_id s.active_connections).isSome then
    none
  else
    some { s with active_connections := aset user_id ws s.active_connections }

/-- One pass of the event-cleanup loop in `ConnectionManager.disconnect`:
for every event, remove the user from the participant set and delete the
event entry if that removal emptied it. -/
def purgeFromEvents (user_id : String) (ps : List (String × List String)) :
    List (String × List String) :=
  ps.filterMap (fun p =>
    if user_id ∈ p.2 then
      let ms := sremove user_id p.2
      if ms = [] then none else some (p.1, ms)
    else
      some p)

/-- `ConnectionManager.disconnect`: drop the connection, purge the user
from every event participant set (deleting sets this empties) and discard
the stored location.  Every mutation is guarded by a membership test, so
the source never raises. -/
def disconnect (s : ManagerState) (user_id : String) : ManagerState :=
  { active_connections := aremove user_id s.active_connections
    event_participants := purgeFromEvents user_id s.event_participants
    user_locations := aremove user_id s.user_locations }

/-- `ConnectionManager.join_event`: create the participant set if missing,
then add the user to it. -/
def join_event (s : ManagerState) (user_id event_id : String) : ManagerState :=
  match List.lookup event_id s.event_participants with
  | none =>
      { s with event_participants := s.event_participants ++ [(event_id, [user_id])] }
  | some ms =>
      { s with event_participants := aset event_id (sadd user_id ms) s.event_participants }

/-- `ConnectionManager.leave_event`: remove the user from the event's
participant set and delete the entry when the set becomes empty. -/
def leave_event (s : ManagerState) (user_id event_id : String) : ManagerState :=
  match List.lookup event_id s.event_participants with
  | none => s
  | some ms =>
      let ms2 := sremove user_id ms
      if ms2 = [] then
        { s with event_participants := aremove event_id s.event_participants }
      else
        { s with event_participants := aset event_id ms2 s.event_participants }

/-- `ConnectionManager.update_user_location`: build the new record stamped
with the current clock reading `now`; if a stored record is strictly newer,
reject the update and return the stored record, otherwise store and return
the new one. -/
def update_user_location (s : ManagerState) (user_id : String) (coords : ℚ × ℚ)
    (accuracy speed heading : Option ℚ) (now : ℤ) : ManagerState × UserLocation :=
  let location : UserLocation :=
    { user_id := user_id, coordinates := coords, timestamp := now,
      accuracy := accuracy, speed := speed, heading := heading }
  match List.lookup user_id s.user_locations with
  | some old =>
      if old.timestamp > location.timestamp then
        (s, old)
      else
        ({ s with user_locations := aset user_id location s.user_locations }, location)
  | none =>
      ({ s with user_locations := aset user_id location s.user_locations }, location)

/-- `ConnectionManager.get_all_locations`: a copy of the location map. -/
def get_all_locations (s : ManagerState) : List (String × UserLocation) :=
  s.user_locations

/-- `ConnectionManager.get_event_participants`: the participant list of the
event, empty when the event is unknown. -/
def get_event_participants (s : ManagerState) (event_id : String) : List String :=
  (List.lookup event_id s.event_participants).getD []

/-- The state-mutating registry commands, used to quantify over operation
sequences. -/
inductive MOp where
  | connect (user_id : String) (ws : ℕ)
  | disconnect (user_id : String)
  | join (user_id event_id : String)
  | leave (user_id event_id : String)
  | updateLoc (user_id : String) (coords : ℚ × ℚ)
      (accuracy speed heading : Option ℚ) (now : ℤ)
deriving DecidableEq, Repr

/-- The session key an operation acts for. -/
def MOp.user : MOp → String
  | .connect u _ => u
  | .disconnect u => u
  | .join u _ => u
  | .leave u _ => u
  | .updateLoc u _ _ _ _ _ => u

/-- Apply one registry command. -/
def applyMOp (s : ManagerState) : MOp → ManagerState
  | .connect u ws => connect s u ws
  | .disconnect u => disconnect s u
  | .join u e => join_event s u e
  | .leave u e => leave_event s u e
  | .updateLoc u c a sp h t => (update_user_location s u c a sp h t).1

/-- Run a sequence of registry commands. -/
def runMOps (s : ManagerState) (ops : List MOp) : ManagerState :=
  ops.foldl applyMOp s

/-- The session key is absent from the location map and from every event
participant set, as seen through the registry's query operations. -/
def keyAbsent (s : ManagerState) (u : String) : Prop :=
  List.lookup u (get_all_locations s) = none ∧
    ∀ e, u ∉ get_event_participants s e

/-- No event entry carries an empty participant set. -/
def noEmptyRoom (s : ManagerState) : Prop :=
  ∀ p ∈ s.event_participants, p.2 ≠ []

/-! Association-list and set lemmas used throughout. -/

theorem lookup_aset_self {β : Type} (k : String) (v : β) (l : List (String × β)) :
    List.lookup k (aset k v l) = some v := by
  induction l with
  | nil => simp [aset]
  | cons p rest ih =>
    obtain ⟨a, b⟩ := p
    by_cases h : a = k
    · subst h
      simp [aset]
    · simp only [aset, if_neg h]
      rw [List.lookup_cons]
      have hb : (k == a) = false := by simp [Ne.symm h]
      simp [hb, ih]

theorem lookup_aset_ne {β : Type} (k k' : String) (v : β) (l : List (String × β))
    (h : k' ≠ k) : List.lookup k' (aset k v l) = List.lookup k' l := by
  induction l with
  | nil =>
    have hb : (k' == k) = false := by simp [h]
    simp [aset, List.lookup_cons, hb]
  | cons p rest ih =>
    obtain ⟨a, b⟩ := p
    by_cases hp : a = k
    · subst hp
      have hb : (k' == a) = false := by simp [h]
      rw [show aset a v ((a, b) :: rest) = (a, v) :: rest from by simp [aset]]
      rw [List.lookup_cons, List.lookup_cons]
      simp [hb]
    · simp only [aset, if_neg hp]
      rw [List.lookup_cons, List.lookup_cons]
      cases hb : (k' == a) <;> simp [hb, ih]

theorem aset_aset {β : Type} (k : String) (v1 v2 : β) (l : List (String × β)) :
    aset k v2 (aset k v1 l) = aset k v2 l := by
  induction l with
  | nil => simp [aset]
  | cons p rest ih =>
    by_cases h : p.1 = k
    · simp [aset, h]
    · simp [aset, h, ih]

theorem mem_aset {β : Type} (k : String) (v : β) (l : List (String × β))
    (p : String × β) (hp : p ∈ aset k v l) : p = (k, v) ∨ p ∈ l := by
  induction l with
  | nil =>
    simp [aset] at hp
    exact Or.inl hp
  | cons q rest ih =>
    by_cases h : q.1 = k
    · simp only [aset, if_pos h, List.mem_cons] at hp
      rcases hp with hp | hp
      · exact Or.inl hp
      · exact Or.inr (List.mem_cons_of_mem _ hp)
    · simp only [aset, if_neg h, List.mem_cons] at hp
      rcases hp with hp | hp
      · exact Or.inr (by simp [hp])
      · rcases ih hp with h2 | h2
        · exact Or.inl h2
        · exact Or.inr (List.mem_cons_of_mem _ h2)

theorem mem_aremove {β : Type} (k : String) (l : List (String × β))
    (p : String × β) (hp : p ∈ aremove k l) : p ∈ l ∧ p.1 ≠ k := by
  simpa [aremove] using hp

theorem lookup_eq_none_of_keys {β : Type} (u : String) (l : List (String × β))
    (h : ∀ p ∈ l, p.1 ≠ u) : List.lookup u l = none := by
  induction l with
  | nil => rfl
  | cons p rest ih =>
    obtain ⟨a, b⟩ := p
    have h1 : a ≠ u := h (a, b) (List.mem_cons_self _ _)
    rw [List.lookup_cons]
    have hb : (u == a) = false := by simp [Ne.symm h1]
    simp only [hb]
    exact ih fun q hq => h q (List.mem_cons_of_mem _ hq)

theorem mem_of_lookup_eq_some {β : Type} (k : String) (l : List (String × β))
    (v : β) (h : List.lookup k l = some v) : (k, v) ∈ l := by
  induction l with
  | nil => simp [List.lookup] at h
  | cons p rest ih =>
    obtain ⟨a, b⟩ := p
    by_cases hk : a = k
    · subst hk
      rw [List.lookup_cons] at h
      simp only [beq_self_eq_true] at h
      simp only [Option.some.injEq] at h
      subst h
      exact List.mem_cons_self _ _
    · rw [List.lookup_cons] at h
      have hb : (k == a) = false := by simp [Ne.symm hk]
      simp only [hb] at h
      exact List.mem_cons_of_mem _ (ih h)

theorem lookup_aremove_self {β : Type} (k : String) (l : List (String × β)) :
    List.lookup k (aremove k l) = none := by
  refine lookup_eq_none_of_keys k _ (fun p hp => ?_)
  exact (mem_aremove k l p hp).2

theorem aremove_idem {β : Type} (k : String) (l : List (String × β)) :
    aremove k (aremove k l) = aremove k l := by
  simp [aremove, List.filter_filter]

theorem mem_sremove (u v : String) (ms : List String) (h : v ∈ sremove u ms) :
    v ∈ ms ∧ v ≠ u := by
  simpa [sremove] using h

theorem not_mem_sremove_self (u : String) (ms : List String) : u ∉ sremove u ms := by
  intro h
  exact (mem_sremove u u ms h).2 rfl

theorem purgeFromEvents_not_mem (u : String) (ps : List (String × List String)) :
    ∀ p ∈ purgeFromEvents u ps, u ∉ p.2 := by
  intro p hp
  induction ps with
  | nil => simp [purgeFromEvents] at hp
  | cons q rest ih =>
    simp only [purgeFromEvents, List.filterMap] at hp
    by_cases hq : u ∈ q.2
    · set ms := sremove u q.2 with hms
      by_cases he : ms = []
      · simp only [if_pos hq, hms.symm, if_pos he] at hp
        exact ih (by simpa [purgeFromEvents] using hp)
      · simp only [if_pos hq, hms.symm, if_neg he] at hp
        rcases List.mem_cons.mp hp with hp | hp
        · subst hp
          exact not_mem_sremove_self u q.2
        · exact ih (by simpa [purgeFromEvents] using hp)
    · simp only [if_neg hq] at hp
      rcases List.mem_cons.mp hp with hp | hp
      · subst hp
        exact hq
      · exact ih (by simpa [purgeFromEvents] using hp)

theorem purgeFromEvents_eq_self (u : String) (ps : List (String × List String))
    (h : ∀ p ∈ ps, u ∉ p.2) : purgeFromEvents u ps = ps := by
  induction ps with
  | nil => rfl
  | cons q rest ih =>
    have hq : u ∉ q.2 := h q (List.mem_cons_self q rest)
    simp only [purgeFromEvents, List.filterMap, if_neg hq]
    rw [show List.filterMap _ rest = purgeFromEvents u rest from rfl,
      ih (fun p hp => h p (List.mem_cons_of_mem _ hp))]

/-! Claim C3: duplicate `connect`. -/

/-- C3 counterexample: with the key `u1` already active (transport `1`),
`connect` neither fails nor signals `DuplicateSession` (its result type is
just the updated state); it silently overwrites the registration with the
new transport `2`, whereas the specified `connectSpec` refuses.  This
refutes the claim that a duplicate `connect` fails rather than silently
succeeding. -/
theorem connect_duplicate_counterexample :
    List.lookup "u1" (connect mEmpty "u1" 1).active_connections = some 1 ∧
    connectSpec (connect mEmpty "u1" 1) "u1" 2 = none ∧
    List.lookup "u1" (connect (connect mEmpty "u1" 1) "u1" 2).active_connections
      = some 2 := by
  decide

/-- C3 amended: calling `connect` with a key that is already registered
silently replaces the stored transport for that key; registrations under
other keys and all other registry state are untouched, and no
duplicate-session outcome is produced (the operation returns only the
updated state). -/
theorem connect_silently_replaces (s : ManagerState) (u : String) (ws : ℕ) :
    List.lookup u (connect s u ws).active_connections = some ws ∧
    (∀ u', u' ≠ u → List.lookup u' (connect s u ws).active_connections
        = List.lookup u' s.active_connections) ∧
    (connect s u ws).event_participants = s.event_participants ∧
    (connect s u ws).user_locations = s.user_locations :=
  ⟨lookup_aset_self u ws _, fun u' h => lookup_aset_ne u u' ws _ h, rfl, rfl⟩

/-- C3 amended, witness: replacing `u1`'s transport leaves `u2`'s intact. -/
theorem connect_silently_replaces_witness :
    List.lookup "u2" (connect (connect mEmpty "u2" 7) "u1" 3).active_connections
      = some 7 :=
  ((connect_silently_replaces (connect mEmpty "u2" 7) "u1" 3).2.1 "u2"
    (by decide)).trans (by decide)

/-! Claim C8: `disconnect` is idempotent and purges all derived state. -/

/-- C8: for every registry state and key, a second `disconnect` right after
a first one is a no-op (the state is identical), and `disconnect` removes
the session's connection, purges it from every event participant set and
discards its position record.  In the source every mutation is guarded by
a membership test, so no branch can raise. -/
theorem disconnect_idempotent (s : ManagerState) (u : String) :
    disconnect (disconnect s u) u = disconnect s u ∧
    List.lookup u (disconnect s u).active_connections = none ∧
    (∀ p ∈ (disconnect s u).event_participants, u ∉ p.2) ∧
    List.lookup u (disconnect s u).user_locations = none := by
  refine ⟨?_, lookup_aremove_self u _, purgeFromEvents_not_mem u _,
    lookup_aremove_self u _⟩
  simp only [disconnect, ManagerState.mk.injEq]
  exact ⟨aremove_idem u _,
    purgeFromEvents_eq_self u _ (purgeFromEvents_not_mem u _), aremove_idem u _⟩

/-- A concrete populated registry used by several witnesses below. -/
def sampleState : ManagerState :=
  { active_connections := [("u1", 1), ("u2", 2)]
    event_participants := [("e1", ["u1", "u2"]), ("e2", ["u1"])]
    user_locations :=
      [("u1", { user_id := "u1", coordinates := (1, 2), timestamp := 5 })] }

/-- C8 witness: the double disconnect of `u1` on a concrete populated
registry equals the single disconnect. -/
theorem disconnect_idempotent_witness :
    disconnect (disconnect sampleState "u1") "u1" = disconnect sampleState "u1" :=
  (disconnect_idempotent sampleState "u1").1

/-! Claims C10 and C9: room-membership invariants. -/

theorem mem_sadd (u x : String) (ms : List String) (h : x ∈ sadd u ms) :
    x = u ∨ x ∈ ms := by
  by_cases hu : u ∈ ms
  · simp only [sadd, if_pos hu] at h
    exact Or.inr h
  · simp only [sadd, if_neg hu, List.mem_append, List.mem_singleton] at h
    exact h.symm

theorem sadd_ne_nil (u : String) (ms : List String) : sadd u ms ≠ [] := by
  by_cases hu : u ∈ ms
  · simp only [sadd, if_pos hu]
    exact List.ne_nil_of_mem hu
  · simp [sadd, if_neg hu]

/-- Every entry surviving the disconnect purge descends from an entry of
the original map: same event key, participants a subset of the original
ones, and either unchanged or left nonempty. -/
theorem mem_purgeFromEvents (u : String) (ps : List (String × List String))
    (p : String × List String) (hp : p ∈ purgeFromEvents u ps) :
    ∃ q ∈ ps, p.1 = q.1 ∧ (∀ x ∈ p.2, x ∈ q.2) ∧ (p.2 = q.2 ∨ p.2 ≠ []) := by
  induction ps with
  | nil => simp [purgeFromEvents] at hp
  | cons q rest ih =>
    simp only [purgeFromEvents, List.filterMap] at hp
    by_cases hq : u ∈ q.2
    · by_cases he : sremove u q.2 = []
      · simp only [if_pos hq, if_pos he] at hp
        obtain ⟨r, hr, hrest⟩ := ih (by simpa [purgeFromEvents] using hp)
        exact ⟨r, List.mem_cons_of_mem _ hr, hrest⟩
      · simp only [if_pos hq, if_neg he] at hp
        rcases List.mem_cons.mp hp with hp | hp
        · subst hp
          refine ⟨q, List.mem_cons_self _ _, rfl, ?_, Or.inr he⟩
          exact fun x hx => (mem_sremove u x q.2 hx).1
        · obtain ⟨r, hr, hrest⟩ := ih (by simpa [purgeFromEvents] using hp)
          exact ⟨r, List.mem_cons_of_mem _ hr, hrest⟩
    · simp only [if_neg hq] at hp
      rcases List.mem_cons.mp hp with hp | hp
      · exact ⟨q, List.mem_cons_self _ _, by rw [hp],
          fun x hx => by rw [hp] at hx; exact hx, Or.inl (by rw [hp])⟩
      · obtain ⟨r, hr, hrest⟩ := ih (by simpa [purgeFromEvents] using hp)
        exact ⟨r, List.mem_cons_of_mem _ hr, hrest⟩

/-- One registry command keeps the no-empty-participant-set invariant. -/
theorem noEmptyRoom_applyMOp (s : ManagerState) (op : MOp)
    (h : noEmptyRoom s) : noEmptyRoom (applyMOp s op) := by
  cases op with
  | connect u ws =>
    intro p hp
    exact h p hp
  | disconnect u =>
    intro p hp
    obtain ⟨q, hq, _, _, hcase⟩ :=
      mem_purgeFromEvents u s.event_participants p hp
    rcases hcase with hcase | hcase
    · rw [hcase]
      exact h q hq
    · exact hcase
  | join u e =>
    intro p hp
    simp only [applyMOp, join_event] at hp
    cases hl : List.lookup e s.event_participants with
    | none =>
      rw [hl] at hp
      simp only [List.mem_append, List.mem_singleton] at hp
      rcases hp with hp | hp
      · exact h p hp
      · subst hp
        simp
    | some ms =>
      rw [hl] at hp
      rcases mem_aset e (sadd u ms) s.event_participants p hp with hp | hp
      · subst hp
        exact sadd_ne_nil u ms
      · exact h p hp
  | leave u e =>
    intro p hp
    simp only [applyMOp, leave_event] at hp
    cases hl : List.lookup e s.event_participants with
    | none =>
      rw [hl] at hp
      exact h p hp
    | some ms =>
      rw [hl] at hp
      by_cases he : sremove u ms = []
      · simp only [if_pos he] at hp
        exact h p (mem_aremove e s.event_participants p hp).1
      · simp only [if_neg he] at hp
        rcases mem_aset e (sremove u ms) s.event_participants p hp with hp | hp
        · subst hp
          exact he
        · exact h p hp
  | updateLoc u c a sp hd t =>
    intro p hp
    simp only [applyMOp, update_user_location] at hp
    cases hl : List.lookup u s.user_locations with
    | none =>
      rw [hl] at hp
      exact h p hp
    | some old =>
      rw [hl] at hp
      by_cases ht : old.timestamp > t
      · simp only [if_pos ht] at hp
        exact h p hp
      · simp only [if_neg ht] at hp
        exact h p hp

/-- C10: starting from the empty registry, no sequence of registry
commands (in particular no sequence of `join_event`, `leave_event` and
`disconnect` calls) can leave an event entry with an empty participant
set: `join_event` only creates an entry together with its first member,
and `leave_event` and `disconnect` delete an entry when they remove its
last member. -/
theorem no_empty_room_invariant (ops : List MOp) :
    noEmptyRoom (runMOps mEmpty ops) := by
  suffices hgen : ∀ s, noEmptyRoom s → noEmptyRoom (runMOps s ops) by
    refine hgen mEmpty ?_
    intro p hp
    simp [mEmpty] at hp
  induction ops with
  | nil => exact fun s hs => hs
  | cons op rest ih =>
    intro s hs
    exact ih (applyMOp s op) (noEmptyRoom_applyMOp s op hs)

/-- Structural absence of a key: no location entry is keyed by it and no
event participant set contains it. -/
def keyFree (s : ManagerState) (u : String) : Prop :=
  (∀ p ∈ s.user_locations, p.1 ≠ u) ∧ (∀ p ∈ s.event_participants, u ∉ p.2)

theorem keyAbsent_of_keyFree (s : ManagerState) (u : String)
    (h : keyFree s u) : keyAbsent s u := by
  refine ⟨lookup_eq_none_of_keys u _ h.1, fun e => ?_⟩
  unfold get_event_participants
  cases hl : List.lookup e s.event_participants with
  | none => simp
  | some ms =>
    simpa using h.2 (e, ms) (mem_of_lookup_eq_some e _ ms hl)

theorem keyFree_disconnect (s : ManagerState) (u : String) :
    keyFree (disconnect s u) u :=
  ⟨fun p hp => (mem_aremove u s.user_locations p hp).2,
   purgeFromEvents_not_mem u s.event_participants⟩

theorem join_event_locs (s : ManagerState) (u e : String) :
    (join_event s u e).user_locations = s.user_locations := by
  unfold join_event
  cases List.lookup e s.event_participants <;> rfl

theorem leave_event_locs (s : ManagerState) (u e : String) :
    (leave_event s u e).user_locations = s.user_locations := by
  unfold leave_event
  cases List.lookup e s.event_participants with
  | none => rfl
  | some ms =>
    by_cases he : sremove u ms = [] <;> simp [he]

theorem update_loc_events (s : ManagerState) (u : String) (c : ℚ × ℚ)
    (a sp hd : Option ℚ) (t : ℤ) :
    ((update_user_location s u c a sp hd t).1).event_participants
      = s.event_participants := by
  unfold update_user_location
  cases List.lookup u s.user_locations with
  | none => rfl
  | some old =>
    by_cases ht : old.timestamp > t <;> simp [ht]

/-- A registry command issued for a different session key cannot introduce
an absent key into the location map or any participant set. -/
theorem keyFree_applyMOp (s : ManagerState) (u : String) (op : MOp)
    (h : keyFree s u) (hop : op.user ≠ u) : keyFree (applyMOp s op) u := by
  cases op with
  | connect v ws =>
    exact ⟨h.1, h.2⟩
  | disconnect v =>
    refine ⟨fun p hp => h.1 p (mem_aremove v s.user_locations p hp).1, ?_⟩
    intro p hp hu
    obtain ⟨q, hq, _, hsub, _⟩ := mem_purgeFromEvents v s.event_participants p hp
    exact h.2 q hq (hsub u hu)
  | join v e =>
    simp only [MOp.user] at hop
    refine ⟨fun p hp => h.1 p (by rwa [show (applyMOp s (MOp.join v e)).user_locations = s.user_locations from join_event_locs s v e] at hp), ?_⟩
    intro p hp hu
    simp only [applyMOp, join_event] at hp
    cases hl : List.lookup e s.event_participants with
    | none =>
      rw [hl] at hp
      simp only [List.mem_append, List.mem_singleton] at hp
      rcases hp with hp | hp
      · exact h.2 p hp hu
      · rw [hp] at hu
        simp only [List.mem_singleton] at hu
        exact hop hu.symm
    | some ms =>
      rw [hl] at hp
      rcases mem_aset e (sadd v ms) s.event_participants p hp with hp | hp
      · rw [hp] at hu
        rcases mem_sadd v u ms hu with hu | hu
        · exact hop hu.symm
        · exact h.2 (e, ms) (mem_of_lookup_eq_some e _ ms hl) hu
      · exact h.2 p hp hu
  | leave v e =>
    refine ⟨fun p hp => h.1 p (by rwa [show (applyMOp s (MOp.leave v e)).user_locations = s.user_locations from leave_event_locs s v e] at hp), ?_⟩
    intro p hp hu
    simp only [applyMOp, leave_event] at hp
    cases hl : List.lookup e s.event_participants with
    | none =>
      rw [hl] at hp
      exact h.2 p hp hu
    | some ms =>
      rw [hl] at hp
      by_cases he : sremove v ms = []
      · simp only [if_pos he] at hp
        exact h.2 p (mem_aremove e s.event_participants p hp).1 hu
      · simp only [if_neg he] at hp
        rcases mem_aset e (sremove v ms) s.event_participants p hp with hp | hp
        · rw [hp] at hu
          exact h.2 (e, ms) (mem_of_lookup_eq_some e _ ms hl)
            (mem_sremove v u ms hu).1
        · exact h.2 p hp hu
  | updateLoc v c a sp hd t =>
    simp only [MOp.user] at hop
    refine ⟨?_, fun p hp => h.2 p (by rwa [show (applyMOp s (MOp.updateLoc v c a sp hd t)).event_participants = s.event_participants from update_loc_events s v c a sp hd t] at hp)⟩
    intro p hp
    simp only [applyMOp, update_user_location] at hp
    cases hl : List.lookup v s.user_locations with
    | none =>
      rw [hl] at hp
      rcases mem_aset v _ s.user_locations p hp with hp | hp
      · rw [hp]
        exact hop
      · exact h.1 p hp
    | some old =>
      rw [hl] at hp
      by_cases ht : old.timestamp > t
      · simp only [if_pos ht] at hp
        exact h.1 p hp
      · simp only [if_neg ht] at hp
        rcases mem_aset v _ s.user_locations p hp with hp | hp
        · rw [hp]
          exact hop
        · exact h.1 p hp

/-- C9: once a session key has been removed by `disconnect`, no later
sequence of registry commands issued for other session keys can make it
reappear: it is absent from `get_all_locations` and from
`get_event_participants` of every event. -/
theorem disconnected_key_never_reappears (s : ManagerState) (u : String)
    (ops : List MOp) (h : ∀ op ∈ ops, op.user ≠ u) :
    keyAbsent (runMOps (disconnect s u) ops) u := by
  suffices hgen : ∀ s', keyFree s' u → keyAbsent (runMOps s' ops) u from
    hgen (disconnect s u) (keyFree_disconnect s u)
  induction ops with
  | nil => exact fun s' hs' => keyAbsent_of_keyFree s' u hs'
  | cons op rest ih =>
    intro s' hs'
    exact ih (fun o ho => h o (List.mem_cons_of_mem _ ho)) (applyMOp s' op)
      (keyFree_applyMOp s' u op hs' (h op (List.mem_cons_self _ _)))

/-- C9 witness: after disconnecting `u1` from a populated registry, a
burst of activity by `u2` leaves `u1` absent from all queries. -/
theorem disconnected_key_never_reappears_witness :
    keyAbsent
      (runMOps (disconnect sampleState "u1")
        [MOp.connect "u2" 7, MOp.join "u2" "e1",
         MOp.updateLoc "u2" (1, 1) none none none 3,
         MOp.leave "u2" "e2", MOp.disconnect "u2"]) "u1" :=
  disconnected_key_never_reappears sampleState "u1" _ (by decide)

/-! Claim C2: last-writer-wins position updates. -/

/-- The location record `update_user_location` builds for an update applied
at clock reading `t`. -/
def mkLoc (u : String) (c : ℚ × ℚ) (a sp hd : Option ℚ) (t : ℤ) : UserLocation :=
  { user_id := u, coordinates := c, timestamp := t,
    accuracy := a, speed := sp, heading := hd }

theorem update_loc_of_none (s : ManagerState) (u : String) (c : ℚ × ℚ)
    (a sp hd : Option ℚ) (t : ℤ)
    (hl : List.lookup u s.user_locations = none) :
    update_user_location s u c a sp hd t
      = ({ s with user_locations := aset u (mkLoc u c a sp hd t) s.user_locations },
         mkLoc u c a sp hd t) := by
  unfold update_user_location
  rw [hl]
  rfl

theorem update_loc_of_newer (s : ManagerState) (u : String) (c : ℚ × ℚ)
    (a sp hd : Option ℚ) (t : ℤ) (old : UserLocation)
    (hl : List.lookup u s.user_locations = some old)
    (ht : old.timestamp > t) :
    update_user_location s u c a sp hd t = (s, old) := by
  unfold update_user_location
  rw [hl]
  simp only [if_pos ht]

theorem update_loc_of_older (s : ManagerState) (u : String) (c : ℚ × ℚ)
    (a sp hd : Option ℚ) (t : ℤ) (old : UserLocation)
    (hl : List.lookup u s.user_locations = some old)
    (ht : ¬ old.timestamp > t) :
    update_user_location s u c a sp hd t
      = ({ s with user_locations := aset u (mkLoc u c a sp hd t) s.user_locations },
         mkLoc u c a sp hd t) := by
  unfold update_user_location
  rw [hl]
  simp only [if_neg ht]
  rfl

/-- The state reached by one `update_user_location` call (first component
of its result). -/
def apply_update (s : ManagerState) (u : String) (c : ℚ × ℚ)
    (a sp hd : Option ℚ) (t : ℤ) : ManagerState :=
  (update_user_location s u c a sp hd t).1

theorem apply_update_of_none (s : ManagerState) (u : String) (c : ℚ × ℚ)
    (a sp hd : Option ℚ) (t : ℤ)
    (hl : List.lookup u s.user_locations = none) :
    apply_update s u c a sp hd t
      = { s with user_locations := aset u (mkLoc u c a sp hd t) s.user_locations } := by
  rw [apply_update, update_loc_of_none s u c a sp hd t hl]

theorem apply_update_of_newer (s : ManagerState) (u : String) (c : ℚ × ℚ)
    (a sp hd : Option ℚ) (t : ℤ) (old : UserLocation)
    (hl : List.lookup u s.user_locations = some old)
    (ht : old.timestamp > t) :
    apply_update s u c a sp hd t = s := by
  rw [apply_update, update_loc_of_newer s u c a sp hd t old hl ht]

theorem apply_update_of_older (s : ManagerState) (u : String) (c : ℚ × ℚ)
    (a sp hd : Option ℚ) (t : ℤ) (old : UserLocation)
    (hl : List.lookup u s.user_locations = some old)
    (ht : ¬ old.timestamp > t) :
    apply_update s u c a sp hd t
      = { s with user_locations := aset u (mkLoc u c a sp hd t) s.user_locations } := by
  rw [apply_update, update_loc_of_older s u c a sp hd t old hl ht]

/-- C2: two position updates stamped `t1 < t2` commute --- delivering them to
`update_user_location` in either order leaves the identical registry state,
whose stored record for the session carries timestamp `max t1 t2` (and the
payload of the `t2` update); and an update whose stamp is strictly older
than the stored record is not applied: the call leaves the state unchanged
and returns the pre-existing record.  The hypothesis asks that the record
already stored (if any) is not newer than `t2`, i.e. that `t2` is the
newest stamp in play. -/
theorem update_location_last_writer_wins (s : ManagerState) (u : String)
    (c1 c2 : ℚ × ℚ) (a1 sp1 h1 a2 sp2 h2 : Option ℚ) (t1 t2 : ℤ)
    (hlt : t1 < t2)
    (hstored : ∀ r, List.lookup u s.user_locations = some r → r.timestamp ≤ t2) :
    ((update_user_location (update_user_location s u c1 a1 sp1 h1 t1).1
        u c2 a2 sp2 h2 t2).1
      = (update_user_location (update_user_location s u c2 a2 sp2 h2 t2).1
        u c1 a1 sp1 h1 t1).1)
    ∧ List.lookup u ((update_user_location (update_user_location s u c1 a1 sp1 h1 t1).1
        u c2 a2 sp2 h2 t2).1).user_locations
      = some (mkLoc u c2 a2 sp2 h2 (max t1 t2))
    ∧ (∀ r, List.lookup u s.user_locations = some r → t1 < r.timestamp →
        update_user_location s u c1 a1 sp1 h1 t1 = (s, r)) := by
  have hmax : max t1 t2 = t2 := max_eq_right hlt.le
  have hreject : ∀ r, List.lookup u s.user_locations = some r → t1 < r.timestamp →
      update_user_location s u c1 a1 sp1 h1 t1 = (s, r) :=
    fun r hr hrt => update_loc_of_newer s u c1 a1 sp1 h1 t1 r hr hrt
  have hmain : apply_update (apply_update s u c1 a1 sp1 h1 t1) u c2 a2 sp2 h2 t2
      = apply_update (apply_update s u c2 a2 sp2 h2 t2) u c1 a1 sp1 h1 t1
      ∧ List.lookup u (apply_update (apply_update s u c1 a1 sp1 h1 t1)
          u c2 a2 sp2 h2 t2).user_locations
        = some (mkLoc u c2 a2 sp2 h2 t2) := by
    cases hl : List.lookup u s.user_locations with
    | none =>
      rw [apply_update_of_none s u c1 a1 sp1 h1 t1 hl,
        apply_update_of_none s u c2 a2 sp2 h2 t2 hl]
      have l1 : List.lookup u (aset u (mkLoc u c1 a1 sp1 h1 t1) s.user_locations)
          = some (mkLoc u c1 a1 sp1 h1 t1) := lookup_aset_self u _ _
      have l2 : List.lookup u (aset u (mkLoc u c2 a2 sp2 h2 t2) s.user_locations)
          = some (mkLoc u c2 a2 sp2 h2 t2) := lookup_aset_self u _ _
      rw [apply_update_of_older _ u c2 a2 sp2 h2 t2 _ l1 (by simp [mkLoc]; omega),
        apply_update_of_newer _ u c1 a1 sp1 h1 t1 _ l2 (by simp [mkLoc]; omega)]
      constructor
      · simp [aset_aset]
      · exact lookup_aset_self u _ _
    | some r =>
      have hr2 : r.timestamp ≤ t2 := hstored r hl
      by_cases hr1 : r.timestamp > t1
      · rw [apply_update_of_newer s u c1 a1 sp1 h1 t1 r hl hr1,
          apply_update_of_older s u c2 a2 sp2 h2 t2 r hl (by omega)]
        have l2 : List.lookup u (aset u (mkLoc u c2 a2 sp2 h2 t2) s.user_locations)
            = some (mkLoc u c2 a2 sp2 h2 t2) := lookup_aset_self u _ _
        rw [apply_update_of_newer _ u c1 a1 sp1 h1 t1 _ l2 (by simp [mkLoc]; omega)]
        exact ⟨rfl, lookup_aset_self u _ _⟩
      · rw [apply_update_of_older s u c1 a1 sp1 h1 t1 r hl hr1,
          apply_update_of_older s u c2 a2 sp2 h2 t2 r hl (by omega)]
        have l1 : List.lookup u (aset u (mkLoc u c1 a1 sp1 h1 t1) s.user_locations)
            = some (mkLoc u c1 a1 sp1 h1 t1) := lookup_aset_self u _ _
        have l2 : List.lookup u (aset u (mkLoc u c2 a2 sp2 h2 t2) s.user_locations)
            = some (mkLoc u c2 a2 sp2 h2 t2) := lookup_aset_self u _ _
        rw [apply_update_of_older _ u c2 a2 sp2 h2 t2 _ l1 (by simp [mkLoc]; omega),
          apply_update_of_newer _ u c1 a1 sp1 h1 t1 _ l2 (by simp [mkLoc]; omega)]
        constructor
        · simp [aset_aset]
        · exact lookup_aset_self u _ _
  exact ⟨hmain.1, by rw [hmax]; exact hmain.2, hreject⟩

/-- C2 witness: on the empty registry, updates stamped 1 and 2 delivered in
either order end in the same state. -/
theorem update_location_last_writer_wins_witness :
    (update_user_location (update_user_location mEmpty "u1" (1, 2) none none none 1).1
        "u1" (3, 4) none none none 2).1
      = (update_user_location (update_user_location mEmpty "u1" (3, 4) none none none 2).1
        "u1" (1, 2) none none none 1).1 :=
  (update_location_last_writer_wins mEmpty "u1" (1, 2) (3, 4)
    none none none none none none 1 2 (by decide)
    (fun r hr => by simp [mEmpty, List.lookup] at hr)).1

/-! Collectible claim engine, `app/services/collectible_service.py`. -/

/-- The fields of a collectible document that the claim and expiry
operations read or write (`create_collectible` builds it with
`claimed_by = None`, `is_active = True` and zeroed counters). -/
structure Collectible where
  claimed_by : Option String := none
  claimed_at : Option ℤ := none
  is_active : Bool := true
  expires_at : ℤ
  claim_attempts : ℕ := 0
  successful_claims : ℕ := 0
deriving DecidableEq, Repr

/-- The four claim outcomes `claim_collectible` can report. -/
inductive ClaimResult where
  | success (claim_order : ℕ)
  | alreadyClaimed (winner : String)
  | expired
  | unavailable
deriving DecidableEq, Repr

/-- `CollectibleService.claim_collectible` on one document: first the
best-effort attempt-counter increment, then the single atomic
`find_one_and_update` whose filter demands unclaimed, active and
`expires_at > now`; on filter failure the document is re-read and the
outcome classified as already-claimed, expired or unavailable. -/
def claim_collectible (c : Collectible) (user_id : String) (now : ℤ) :
    Collectible × ClaimResult :=
  let c0 := { c with claim_attempts := c.claim_attempts + 1 }
  if c0.claimed_by = none ∧ c0.is_active = true ∧ c0.expires_at > now then
    let c1 := { c0 with
      claimed_by := some user_id,
      claimed_at := some now,
      is_active := false,
      successful_claims := c0.successful_claims + 1 }
    (c1, ClaimResult.success c1.successful_claims)
  else
    match c0.claimed_by with
    | some w => (c0, ClaimResult.alreadyClaimed w)
    | none =>
        if c0.expires_at < now then (c0, ClaimResult.expired)
        else (c0, ClaimResult.unavailable)

/-- The filter of `expire_old_collectibles`: still active, still
unclaimed, past expiry. -/
def sweepTarget (now : ℤ) (c : Collectible) : Prop :=
  c.is_active = true ∧ c.claimed_by = none ∧ c.expires_at < now

instance (now : ℤ) (c : Collectible) : Decidable (sweepTarget now c) := by
  unfold sweepTarget
  infer_instance

/-- The effect of the expiry sweep on one document. -/
def expireOne (now : ℤ) (c : Collectible) : Collectible :=
  if sweepTarget now c then { c with is_active := false } else c

/-- `CollectibleService.expire_old_collectibles`: `update_many` deactivates
every matching document and reports `modified_count`. -/
def expire_old_collectibles (now : ℤ) (coll : List Collectible) :
    List Collectible × ℕ :=
  (coll.map (expireOne now), coll.countP (fun c => decide (sweepTarget now c)))

/-- Interleavings of claim attempts and expiry sweeps on one resource. -/
inductive CollOp where
  | claim (user_id : String) (now : ℤ)
  | sweep (now : ℤ)
deriving DecidableEq, Repr

/-- Apply one operation; only claims produce an outcome. -/
def applyCollOp (c : Collectible) : CollOp → Collectible × Option ClaimResult
  | .claim u t => ((claim_collectible c u t).1, some (claim_collectible c u t).2)
  | .sweep t => (expireOne t c, none)

/-- The resource state after a sequence of operations. -/
def runColl (c : Collectible) : List CollOp → Collectible
  | [] => c
  | op :: rest => runColl (applyCollOp c op).1 rest

/-- The claim outcomes observed along a sequence of operations. -/
def collOutcomes (c : Collectible) : List CollOp → List ClaimResult
  | [] => []
  | op :: rest =>
      match (applyCollOp c op).2 with
      | some r => r :: collOutcomes (applyCollOp c op).1 rest
      | none => collOutcomes (applyCollOp c op).1 rest

/-- Recognizer for the winning outcome. -/
def ClaimResult.isSuccess : ClaimResult → Bool
  | .success _ => true
  | _ => false

/-- How many claim attempts in the sequence were awarded the resource. -/
def successCount (c : Collectible) (ops : List CollOp) : ℕ :=
  (collOutcomes c ops).countP ClaimResult.isSuccess

/-! Claim C1: at most one winner, winner and deactivation permanent. -/

/-- The claim filter fails against an already-claimed document, which is
reported with its winner; only the attempt counter moves. -/
theorem claim_of_claimed (c : Collectible) (u : String) (t : ℤ) (w : String)
    (h : c.claimed_by = some w) :
    claim_collectible c u t
      = ({ c with claim_attempts := c.claim_attempts + 1 },
         ClaimResult.alreadyClaimed w) := by
  simp [claim_collectible, h]

/-- The atomic conditional update succeeds on an unclaimed, active,
unexpired document, setting winner and deactivating in the same write. -/
theorem claim_of_open (c : Collectible) (u : String) (t : ℤ)
    (h1 : c.claimed_by = none) (h2 : c.is_active = true) (h3 : c.expires_at > t) :
    claim_collectible c u t
      = ({ c with
            claimed_by := some u,
            claimed_at := some t,
            is_active := false,
            claim_attempts := c.claim_attempts + 1,
            successful_claims := c.successful_claims + 1 },
         ClaimResult.success (c.successful_claims + 1)) := by
  simp [claim_collectible, h1, h2, h3]

/-- A claim on an unclaimed document that is inactive or expired fails:
only the attempt counter moves and the outcome is not a success. -/
theorem claim_of_unwinnable (c : Collectible) (u : String) (t : ℤ)
    (h1 : c.claimed_by = none) (h : ¬ (c.is_active = true ∧ c.expires_at > t)) :
    (claim_collectible c u t).1 = { c with claim_attempts := c.claim_attempts + 1 }
    ∧ (claim_collectible c u t).2.isSuccess = false := by
  unfold claim_collectible
  rw [if_neg (by simpa [h1] using h)]
  simp only [h1]
  by_cases he : c.expires_at < t <;> simp [he, ClaimResult.isSuccess]

/-- A claim attempt either wins (setting winner, claim time, deactivation
and the success counter in one atomic update) or leaves everything but the
best-effort attempt counter unchanged. -/
theorem claim_state_cases (c : Collectible) (u : String) (t : ℤ) :
    (claim_collectible c u t).1 = { c with
        claimed_by := some u,
        claimed_at := some t,
        is_active := false,
        claim_attempts := c.claim_attempts + 1,
        successful_claims := c.successful_claims + 1 }
    ∨ (claim_collectible c u t).1 = { c with claim_attempts := c.claim_attempts + 1 } := by
  cases hcb : c.claimed_by with
  | some w =>
    right
    rw [claim_of_claimed c u t w hcb]
    simp [hcb]
  | none =>
    by_cases hc : c.is_active = true ∧ c.expires_at > t
    · left
      rw [claim_of_open c u t hcb hc.1 hc.2]
    · right
      rw [(claim_of_unwinnable c u t hcb hc).1]
      simp [hcb]

theorem expireOne_claimed_by (t : ℤ) (c : Collectible) :
    (expireOne t c).claimed_by = c.claimed_by := by
  unfold expireOne
  split <;> rfl

theorem expireOne_of_claimed (t : ℤ) (c : Collectible) (w : String)
    (h : c.claimed_by = some w) : expireOne t c = c := by
  simp [expireOne, sweepTarget, h]

theorem expireOne_inactive (t : ℤ) (c : Collectible) (h : c.is_active = false) :
    (expireOne t c).is_active = false := by
  simp only [expireOne, sweepTarget]
  split <;> simp [h]

/-- Once a winner is recorded, no operation touches the winner or the
activation flag. -/
theorem claimed_persists (c : Collectible) (op : CollOp) (w : String)
    (h : c.claimed_by = some w) :
    (applyCollOp c op).1.claimed_by = some w
    ∧ (applyCollOp c op).1.is_active = c.is_active := by
  cases op with
  | claim u t =>
    simp only [applyCollOp, claim_of_claimed c u t w h]
    exact ⟨h, trivial⟩
  | sweep t =>
    simp only [applyCollOp, expireOne_of_claimed t c w h]
    exact ⟨h, trivial⟩

theorem claimed_persists_run (c : Collectible) (ops : List CollOp) (w : String)
    (h : c.claimed_by = some w) :
    (runColl c ops).claimed_by = some w
    ∧ (runColl c ops).is_active = c.is_active := by
  induction ops generalizing c with
  | nil => exact ⟨h, rfl⟩
  | cons op rest ih =>
    have hp := claimed_persists c op w h
    have hr := ih (applyCollOp c op).1 hp.1
    exact ⟨hr.1, hr.2.trans hp.2⟩

theorem successCount_of_claimed (c : Collectible) (ops : List CollOp) (w : String)
    (h : c.claimed_by = some w) : successCount c ops = 0 := by
  induction ops generalizing c w with
  | nil => rfl
  | cons op rest ih =>
    cases op with
    | claim u t =>
      have hc := claim_of_claimed c u t w h
      have h2 : ({ c with claim_attempts := c.claim_attempts + 1 }
          : Collectible).claimed_by = some w := h
      have hz := ih { c with claim_attempts := c.claim_attempts + 1 } w h2
      simp only [successCount, collOutcomes, applyCollOp, hc, List.countP_cons,
        ClaimResult.isSuccess]
      simp only [successCount] at hz
      simp [hz]
    | sweep t =>
      have hc := expireOne_of_claimed t c w h
      simp only [successCount, collOutcomes, applyCollOp, hc]
      exact ih c w h

theorem successCount_le_one_aux (ops : List CollOp) :
    ∀ c : Collectible, c.claimed_by = none → successCount c ops ≤ 1 := by
  induction ops with
  | nil =>
    intro c _
    simp [successCount, collOutcomes]
  | cons op rest ih =>
    intro c h
    cases op with
    | sweep t =>
      have h2 : (expireOne t c).claimed_by = none := by
        rw [expireOne_claimed_by]
        exact h
      simpa [successCount, collOutcomes, applyCollOp] using ih (expireOne t c) h2
    | claim u t =>
      by_cases hc : c.is_active = true ∧ c.expires_at > t
      · have he := claim_of_open c u t h hc.1 hc.2
        have hwin : (claim_collectible c u t).1.claimed_by = some u := by
          rw [he]
        have hz := successCount_of_claimed (claim_collectible c u t).1 rest u hwin
        simp only [successCount, collOutcomes, applyCollOp, List.countP_cons]
        simp only [successCount] at hz
        rw [hz, he]
        simp [ClaimResult.isSuccess]
      · have hf := claim_of_unwinnable c u t h hc
        have h2 : (claim_collectible c u t).1.claimed_by = none := by
          rw [hf.1]
          exact h
        have hr := ih (claim_collectible c u t).1 h2
        simp only [successCount, collOutcomes, applyCollOp, List.countP_cons]
        simp only [successCount] at hr
        rw [hf.2]
        simpa using hr

/-- Claimed-implies-deactivated is preserved by every operation. -/
theorem claimedInactive_applyCollOp (c : Collectible) (op : CollOp)
    (h : c.claimed_by = none ∨ c.is_active = false) :
    (applyCollOp c op).1.claimed_by = none
    ∨ (applyCollOp c op).1.is_active = false := by
  cases op with
  | claim u t =>
    rcases claim_state_cases c u t with hs | hs
    · right
      simp only [applyCollOp, hs]
    · rcases h with h | h
      · left
        simp only [applyCollOp, hs]
        exact h
      · right
        simp only [applyCollOp, hs]
        exact h
  | sweep t =>
    rcases h with h | h
    · left
      simp only [applyCollOp]
      rw [expireOne_claimed_by]
      exact h
    · right
      simp only [applyCollOp]
      exact expireOne_inactive t c h

theorem claimedInactive_runColl (c : Collectible)
    (h : c.claimed_by = none ∨ c.is_active = false) (ops : List CollOp) :
    (runColl c ops).claimed_by = none ∨ (runColl c ops).is_active = false := by
  induction ops generalizing c with
  | nil => exact h
  | cons op rest ih =>
    exact ih (applyCollOp c op).1 (claimedInactive_applyCollOp c op h)

theorem claimedInactive_run (c : Collectible) (h : c.claimed_by = none)
    (ops : List CollOp) (w : String)
    (hw : (runColl c ops).claimed_by = some w) :
    (runColl c ops).is_active = false := by
  rcases claimedInactive_runColl c (Or.inl h) ops with hrun | hrun
  · rw [hrun] at hw
    cases hw
  · exact hrun

/-- C1: starting from an unclaimed resource, any interleaving of claim
attempts and expiry sweeps awards at most one success; every unsuccessful
claim reports already-claimed, expired or unavailable; and as soon as a
winner is recorded the resource is deactivated and neither the winner nor
the activation flag is ever changed by later operations. -/
theorem collectible_single_winner (c : Collectible) (h : c.claimed_by = none)
    (ops more : List CollOp) (w : String) :
    successCount c ops ≤ 1
    ∧ (∀ r ∈ collOutcomes c ops, r.isSuccess = false →
        (∃ w', r = ClaimResult.alreadyClaimed w') ∨ r = ClaimResult.expired
          ∨ r = ClaimResult.unavailable)
    ∧ ((runColl c ops).claimed_by = some w →
        (runColl c ops).is_active = false
        ∧ (runColl (runColl c ops) more).claimed_by = some w
        ∧ (runColl (runColl c ops) more).is_active = false) := by
  refine ⟨successCount_le_one_aux ops c h, ?_, ?_⟩
  · intro r _ hs
    cases r with
    | success n => simp [ClaimResult.isSuccess] at hs
    | alreadyClaimed w' => exact Or.inl ⟨w', rfl⟩
    | expired => exact Or.inr (Or.inl rfl)
    | unavailable => exact Or.inr (Or.inr rfl)
  · intro hw
    have hact := claimedInactive_run c h ops w hw
    have hrun := claimed_persists_run (runColl c ops) more w hw
    exact ⟨hact, hrun.1, hrun.2.trans hact⟩

/-- A freshly dropped collectible: unclaimed, active, expiring at 100. -/
def collW : Collectible := { expires_at := 100 }

/-- C1 witness: two racing claims on a fresh collectible produce at most
one success, and the resource ends deactivated with the first claimant as
permanent winner. -/
theorem collectible_single_winner_witness :
    successCount collW [CollOp.claim "alice" 10, CollOp.claim "bob" 11] ≤ 1
    ∧ (runColl collW [CollOp.claim "alice" 10, CollOp.claim "bob" 11]).is_active
        = false :=
  ⟨(collectible_single_winner collW rfl
      [CollOp.claim "alice" 10, CollOp.claim "bob" 11] [CollOp.sweep 200] "alice").1,
   ((collectible_single_winner collW rfl
      [CollOp.claim "alice" 10, CollOp.claim "bob" 11] [CollOp.sweep 200] "alice").2.2
      (by decide)).1⟩

/-! Claim C7: the expiry sweep deactivates exactly the right resources. -/

theorem zip_map_snd {α β : Type} (f : α → β) (l : List α) :
    ∀ p ∈ l.zip (l.map f), p.2 = f p.1 := by
  induction l with
  | nil =>
    intro p hp
    simp at hp
  | cons a rest ih =>
    intro p hp
    simp only [List.map, List.zip_cons_cons] at hp
    rcases List.mem_cons.mp hp with hp | hp
    · rw [hp]
    · exact ih p hp

/-- The sweep changes a document precisely when it matches the filter. -/
theorem expireOne_ne_iff (now : ℤ) (c : Collectible) :
    (expireOne now c ≠ c) ↔ sweepTarget now c := by
  by_cases h : sweepTarget now c
  · simp only [expireOne, if_pos h, h, iff_true]
    intro he
    have hf := congrArg Collectible.is_active he
    rw [h.1] at hf
    cases hf
  · simp [expireOne, if_neg h, h]

/-- The number of documents matching the sweep filter equals the number of
documents the sweep actually modifies. -/
theorem countP_sweep_eq (now : ℤ) (coll : List Collectible) :
    coll.countP (fun c => decide (sweepTarget now c))
      = ((coll.zip (coll.map (expireOne now))).filter
          (fun p => decide (p.2 ≠ p.1))).length := by
  induction coll with
  | nil => rfl
  | cons c rest ih =>
    rw [List.map_cons, List.zip_cons_cons, List.countP_cons, List.filter_cons]
    by_cases h : sweepTarget now c
    · simp [h, (expireOne_ne_iff now c).mpr h, ih]
    · have heq : expireOne now c = c :=
        not_not.mp (fun hx => h ((expireOne_ne_iff now c).mp hx))
      simp [h, heq, ih]

/-- C7: over any collection holding a mix of claimed, unclaimed-expired
and unclaimed-unexpired resources, the expiry sweep keeps the collection's
length, deactivates exactly the documents that are still active, still
unclaimed and past expiry (changing nothing else on them), leaves every
other document untouched, and returns the number of documents it actually
modified. -/
theorem sweep_expired_spec (now : ℤ) (coll : List Collectible) :
    (expire_old_collectibles now coll).1.length = coll.length
    ∧ (∀ p ∈ coll.zip (expire_old_collectibles now coll).1,
        (sweepTarget now p.1 → p.2 = { p.1 with is_active := false })
        ∧ (¬ sweepTarget now p.1 → p.2 = p.1))
    ∧ (expire_old_collectibles now coll).2
      = ((coll.zip (expire_old_collectibles now coll).1).filter
          (fun p => decide (p.2 ≠ p.1))).length := by
  refine ⟨by simp [expire_old_collectibles], ?_, ?_⟩
  · intro p hp
    have hz : p.2 = expireOne now p.1 :=
      zip_map_snd (expireOne now) coll p hp
    constructor
    · intro h
      rw [hz]
      simp [expireOne, if_pos h]
    · intro h
      rw [hz]
      simp [expireOne, if_neg h]
  · exact countP_sweep_eq now coll

/-- A mixed collection: one claimed resource, one unclaimed and expired by
time 50, one unclaimed and still unexpired at time 50. -/
def collMix : List Collectible :=
  [{ expires_at := 10, claimed_by := some "w", is_active := false },
   { expires_at := 10 },
   { expires_at := 100 }]

/-- C7 witness: sweeping the mixed collection at time 50 deactivates
exactly one resource (the unclaimed-expired one) and reports count 1. -/
theorem sweep_expired_witness : (expire_old_collectibles 50 collMix).2 = 1 := by
  rw [(sweep_expired_spec 50 collMix).2.2]
  decide

/-! Room authorization evaluator, `app/middleware/room_authorization.py`. -/

/-- The roles of the `RoomRole` enum. -/
inductive RoomRole where
  | creator
  | moderator
  | participant
  | viewer
  | banned
deriving DecidableEq, Repr

/-- The fields of an event document that `get_user_room_role` consults,
with the `event.get` defaults of the source. -/
structure EventDoc where
  creator_id : String
  banned_users : List String := []
  moderators : List String := []
  is_private : Bool := false
  invited_users : List String := []
deriving DecidableEq, Repr

/-- `get_user_room_role`: creator check, then banned list, then moderator
list, then the private-event invitation check, else public participant;
`none` both for a missing event and for an uninvited user of a private
event. -/
def get_user_room_role (user_id : String) (event : Option EventDoc) :
    Option RoomRole :=
  match event with
  | none => none
  | some e =>
    if e.creator_id = user_id then some RoomRole.creator
    else if user_id ∈ e.banned_users then some RoomRole.banned
    else if user_id ∈ e.moderators then some RoomRole.moderator
    else if e.is_private then
      (if user_id ∈ e.invited_users then some RoomRole.participant else none)
    else some RoomRole.participant

/-- C5: `get_user_room_role` applies its checks in the order creator,
banned list, moderator list, private-event invitation (no role when
private and uninvited), default participant for public events; in
particular a user who is both the creator and banned resolves to the
creator role. -/
theorem role_precedence (u : String) (e : EventDoc) :
    (e.creator_id = u → get_user_room_role u (some e) = some RoomRole.creator)
    ∧ (e.creator_id ≠ u → u ∈ e.banned_users →
        get_user_room_role u (some e) = some RoomRole.banned)
    ∧ (e.creator_id ≠ u → u ∉ e.banned_users → u ∈ e.moderators →
        get_user_room_role u (some e) = some RoomRole.moderator)
    ∧ (e.creator_id ≠ u → u ∉ e.banned_users → u ∉ e.moderators →
        e.is_private = true → u ∉ e.invited_users →
        get_user_room_role u (some e) = none)
    ∧ (e.creator_id ≠ u → u ∉ e.banned_users → u ∉ e.moderators →
        e.is_private = true → u ∈ e.invited_users →
        get_user_room_role u (some e) = some RoomRole.participant)
    ∧ (e.creator_id ≠ u → u ∉ e.banned_users → u ∉ e.moderators →
        e.is_private = false →
        get_user_room_role u (some e) = some RoomRole.participant)
    ∧ get_user_room_role "u1"
        (some { creator_id := "u1", banned_users := ["u1"] })
      = some RoomRole.creator := by
  refine ⟨?_, ?_, ?_, ?_, ?_, ?_, by decide⟩
  · intro h1
    simp [get_user_room_role, h1]
  · intro h1 h2
    simp [get_user_room_role, h1, h2]
  · intro h1 h2 h3
    simp [get_user_room_role, h1, h2, h3]
  · intro h1 h2 h3 h4 h5
    simp [get_user_room_role, h1, h2, h3, h4, h5]
  · intro h1 h2 h3 h4 h5
    simp [get_user_room_role, h1, h2, h3, h4, h5]
  · intro h1 h2 h3 h4
    simp [get_user_room_role, h1, h2, h3, h4]

/-- C5 witness: a non-creator on both the banned and moderator lists is
reported banned (ban precedes moderator). -/
theorem role_precedence_witness :
    get_user_room_role "bob"
      (some { creator_id := "alice", banned_users := ["bob"],
              moderators := ["bob"] })
      = some RoomRole.banned :=
  (role_precedence "bob"
    { creator_id := "alice", banned_users := ["bob"], moderators := ["bob"] }).2.1
    (by decide) (by decide)

/-! Login rate limiter, `app/middleware/rate_limiter.py`. -/

/-- The limiter's configuration (`max_attempts`, `time_window`,
`block_duration`) with the documented defaults: 5 attempts per 60-second
window, 900-second block. -/
structure RLConfig where
  max_attempts : ℕ := 5
  time_window : ℤ := 60
  block_duration : ℤ := 900
deriving DecidableEq, Repr

/-- The `IPRecord` dataclass: per-key counters, all zeroed initially
(also the value a fresh `defaultdict` entry gets). -/
structure IPRecord where
  failed_attempts : ℕ := 0
  first_attempt_time : ℤ := 0
  blocked_until : ℤ := 0
  total_blocks : ℕ := 0
deriving DecidableEq, Repr

/-- `record_failed_attempt`, step 1: reset the counter and restart the
window when the time window has passed. -/
def rlReset (cfg : RLConfig) (r : IPRecord) (now : ℤ) : IPRecord :=
  if now - r.first_attempt_time > cfg.time_window then
    { r with failed_attempts := 0, first_attempt_time := now }
  else r

/-- `record_failed_attempt`, step 2: a first attempt (window start still
zero) starts the window at the current time. -/
def rlStart (r : IPRecord) (now : ℤ) : IPRecord :=
  if r.first_attempt_time = 0 then { r with first_attempt_time := now } else r

/-- `record_failed_attempt`, step 3: count the failed attempt. -/
def rlIncr (r : IPRecord) : IPRecord :=
  { r with failed_attempts := r.failed_attempts + 1 }

/-- `record_failed_attempt`, step 4: once the configured maximum is
reached, set `blocked_until`, count the block and report
`(True, block_duration)`; otherwise report `(False, None)`. -/
def rlBlockCheck (cfg : RLConfig) (r : IPRecord) (now : ℤ) :
    IPRecord × Bool × Option ℤ :=
  if r.failed_attempts ≥ cfg.max_attempts then
    ({ r with
        blocked_until := now + cfg.block_duration,
        total_blocks := r.total_blocks + 1 },
     true, some cfg.block_duration)
  else (r, false, none)

/-- The full effect of `RateLimiter.record_failed_attempt` on one key's
record at clock reading `now`. -/
def bumpRecord (cfg : RLConfig) (r : IPRecord) (now : ℤ) :
    IPRecord × Bool × Option ℤ :=
  rlBlockCheck cfg (rlIncr (rlStart (rlReset cfg r now) now)) now

/-- `RateLimiter.record_failed_attempt` at the map level: fetch (or
create, as the `defaultdict` does) the key's record, update it, and report
the `(now_blocked, block_duration)` pair of the source. -/
def record_failed_attempt (cfg : RLConfig) (records : List (String × IPRecord))
    (ip : String) (now : ℤ) : List (String × IPRecord) × Bool × Option ℤ :=
  ((aset ip (bumpRecord cfg ((List.lookup ip records).getD {}) now).1 records),
   (bumpRecord cfg ((List.lookup ip records).getD {}) now).2)

/-- `RateLimiter.record_successful_attempt`: reset the failure counter and
window start for an existing record, keeping `blocked_until` intact. -/
def record_successful_attempt (records : List (String × IPRecord))
    (ip : String) : List (String × IPRecord) :=
  match List.lookup ip records with
  | none => records
  | some r =>
      aset ip { r with failed_attempts := 0, first_attempt_time := 0 } records

/-- First failure for a fresh record at a positive time: the window starts
at `now` and the counter is 1. -/
theorem bump_fresh (cfg : RLConfig) (now : ℤ)
    (hpos : 0 < now) (hmax : 1 < cfg.max_attempts) :
    bumpRecord cfg {} now
      = ({ failed_attempts := 1, first_attempt_time := now }, false, none) := by
  have h1 : rlStart (rlReset cfg {} now) now
      = { failed_attempts := 0, first_attempt_time := now } := by
    unfold rlReset rlStart
    by_cases hw : now - (({} : IPRecord)).first_attempt_time > cfg.time_window
    · rw [if_pos hw]
      exact if_neg (by simpa using hpos.ne')
    · rw [if_neg hw]
      rfl
  unfold bumpRecord
  rw [h1]
  unfold rlIncr rlBlockCheck
  exact if_neg (by simp; omega)

/-- A further failure inside the window that stays below the maximum just
counts. -/
theorem bump_step (cfg : RLConfig) (r : IPRecord) (now : ℤ)
    (hwin : ¬ now - r.first_attempt_time > cfg.time_window)
    (hfz : r.first_attempt_time ≠ 0)
    (hlt : r.failed_attempts + 1 < cfg.max_attempts) :
    bumpRecord cfg r now
      = ({ r with failed_attempts := r.failed_attempts + 1 }, false, none) := by
  unfold bumpRecord rlReset rlStart rlIncr rlBlockCheck
  rw [if_neg hwin, if_neg hfz]
  exact if_neg (by simp; omega)

/-- The failure that reaches the maximum inside the window sets the block
and reports it. -/
theorem bump_block (cfg : RLConfig) (r : IPRecord) (now : ℤ)
    (hwin : ¬ now - r.first_attempt_time > cfg.time_window)
    (hfz : r.first_attempt_time ≠ 0)
    (hge : r.failed_attempts + 1 ≥ cfg.max_attempts) :
    bumpRecord cfg r now
      = ({ r with
            failed_attempts := r.failed_attempts + 1,
            blocked_until := now + cfg.block_duration,
            total_blocks := r.total_blocks + 1 },
         true, some cfg.block_duration) := by
  unfold bumpRecord rlReset rlStart rlIncr rlBlockCheck
  rw [if_neg hwin, if_neg hfz]
  exact if_pos (by simp; omega)

/-- C6: five failures recorded for a fresh key at nondecreasing times that
all fall in one time window (with the configured maximum of 5) report
`blocked = false` on the first four calls and `(True, block_duration)` on
the fifth; a successful attempt recorded next resets the failure counter
and window start to zero while leaving the just-set `blocked_until`
untouched. -/
theorem rate_limiter_five_failures (cfg : RLConfig) (ip : String)
    (t1 t2 t3 t4 t5 : ℤ) (hmax : cfg.max_attempts = 5)
    (h1 : 0 < t1) (h12 : t1 ≤ t2) (h23 : t2 ≤ t3) (h34 : t3 ≤ t4) (h45 : t4 ≤ t5)
    (hwin : t5 - t1 ≤ cfg.time_window) :
    (record_failed_attempt cfg [] ip t1).2.1 = false
    ∧ (record_failed_attempt cfg
        (record_failed_attempt cfg [] ip t1).1 ip t2).2.1 = false
    ∧ (record_failed_attempt cfg (record_failed_attempt cfg
        (record_failed_attempt cfg [] ip t1).1 ip t2).1 ip t3).2.1 = false
    ∧ (record_failed_attempt cfg (record_failed_attempt cfg (record_failed_attempt cfg
        (record_failed_attempt cfg [] ip t1).1 ip t2).1 ip t3).1 ip t4).2.1 = false
    ∧ (record_failed_attempt cfg (record_failed_attempt cfg (record_failed_attempt cfg
        (record_failed_attempt cfg (record_failed_attempt cfg [] ip t1).1 ip t2).1
          ip t3).1 ip t4).1 ip t5).2
      = (true, some cfg.block_duration)
    ∧ List.lookup ip (record_successful_attempt
        (record_failed_attempt cfg (record_failed_attempt cfg (record_failed_attempt cfg
          (record_failed_attempt cfg (record_failed_attempt cfg [] ip t1).1 ip t2).1
            ip t3).1 ip t4).1 ip t5).1 ip)
      = some { failed_attempts := 0, first_attempt_time := 0,
               blocked_until := t5 + cfg.block_duration, total_blocks := 1 } := by
  have e1 : record_failed_attempt cfg [] ip t1
      = ([(ip, ⟨1, t1, 0, 0⟩)], false, none) := by
    unfold record_failed_attempt
    rw [show (List.lookup ip ([] : List (String × IPRecord))).getD {}
        = ({} : IPRecord) from rfl]
    rw [bump_fresh cfg t1 h1 (by omega)]
    rfl
  have e2 : record_failed_attempt cfg [(ip, ⟨1, t1, 0, 0⟩)] ip t2
      = ([(ip, ⟨2, t1, 0, 0⟩)], false, none) := by
    unfold record_failed_attempt
    rw [show (List.lookup ip [(ip, (⟨1, t1, 0, 0⟩ : IPRecord))]).getD {}
        = (⟨1, t1, 0, 0⟩ : IPRecord) from by simp]
    rw [bump_step cfg ⟨1, t1, 0, 0⟩ t2 (by simp; omega) (by simp; omega)
      (by simp; omega)]
    simp [aset]
  have e3 : record_failed_attempt cfg [(ip, ⟨2, t1, 0, 0⟩)] ip t3
      = ([(ip, ⟨3, t1, 0, 0⟩)], false, none) := by
    unfold record_failed_attempt
    rw [show (List.lookup ip [(ip, (⟨2, t1, 0, 0⟩ : IPRecord))]).getD {}
        = (⟨2, t1, 0, 0⟩ : IPRecord) from by simp]
    rw [bump_step cfg ⟨2, t1, 0, 0⟩ t3 (by simp; omega) (by simp; omega)
      (by simp; omega)]
    simp [aset]
  have e4 : record_failed_attempt cfg [(ip, ⟨3, t1, 0, 0⟩)] ip t4
      = ([(ip, ⟨4, t1, 0, 0⟩)], false, none) := by
    unfold record_failed_attempt
    rw [show (List.lookup ip [(ip, (⟨3, t1, 0, 0⟩ : IPRecord))]).getD {}
        = (⟨3, t1, 0, 0⟩ : IPRecord) from by simp]
    rw [bump_step cfg ⟨3, t1, 0, 0⟩ t4 (by simp; omega) (by simp; omega)
      (by simp; omega)]
    simp [aset]
  have e5 : record_failed_attempt cfg [(ip, ⟨4, t1, 0, 0⟩)] ip t5
      = ([(ip, ⟨5, t1, t5 + cfg.block_duration, 1⟩)], true,
         some cfg.block_duration) := by
    unfold record_failed_attempt
    rw [show (List.lookup ip [(ip, (⟨4, t1, 0, 0⟩ : IPRecord))]).getD {}
        = (⟨4, t1, 0, 0⟩ : IPRecord) from by simp]
    rw [bump_block cfg ⟨4, t1, 0, 0⟩ t5 (by simp; omega) (by simp; omega)
      (by simp; omega)]
    simp [aset]
  have e6 : record_successful_attempt
      [(ip, (⟨5, t1, t5 + cfg.block_duration, 1⟩ : IPRecord))] ip
      = [(ip, ⟨0, 0, t5 + cfg.block_duration, 1⟩)] := by
    unfold record_successful_attempt
    rw [show List.lookup ip [(ip, (⟨5, t1, t5 + cfg.block_duration, 1⟩ : IPRecord))]
        = some (⟨5, t1, t5 + cfg.block_duration, 1⟩ : IPRecord) from by simp]
    simp [aset]
  rw [e1]
  simp only []
  rw [e2]
  simp only []
  rw [e3]
  simp only []
  rw [e4]
  simp only []
  rw [e5]
  simp only []
  rw [e6]
  simp

/-- C6 witness: with the default configuration, key `k` failing at times
1..5 is blocked on the fifth attempt for the full block duration. -/
theorem rate_limiter_five_failures_witness :
    (record_failed_attempt {} (record_failed_attempt {} (record_failed_attempt {}
      (record_failed_attempt {} (record_failed_attempt {} [] "k" 1).1 "k" 2).1
        "k" 3).1 "k" 4).1 "k" 5).2
      = (true, some (900 : ℤ)) :=
  (rate_limiter_five_failures {} "k" 1 2 3 4 5 rfl (by decide) (by decide)
    (by decide) (by decide) (by decide) (by decide)).2.2.2.2.1

/-! Proximity query, `ConnectionManager.get_nearby_users`. -/

/-- One element of the list `get_nearby_users` returns: the user id, the
raw coordinates, and the distance rounded to two decimals (the source also
carries the location's timestamp, accuracy, speed and heading, which play
no part in filtering or ordering). -/
structure NearbyEntry where
  user_id : String
  coordinates : ℚ × ℚ
  distance : ℚ
  timestamp : ℤ
  accuracy : Option ℚ := none
  speed : Option ℚ := none
  heading : Option ℚ := none
deriving DecidableEq, Repr

/-- Python's banker's rounding to an integer, idealized over ℚ. -/
def roundHalfEven (q : ℚ) : ℤ :=
  if q - ⌊q⌋ < 1/2 then ⌊q⌋
  else if q - ⌊q⌋ > 1/2 then ⌊q⌋ + 1
  else if ⌊q⌋ % 2 = 0 then ⌊q⌋ else ⌊q⌋ + 1

/-- Python's `round(q, 2)`, idealized over ℚ. -/
def round2 (q : ℚ) : ℚ := (roundHalfEven (q * 100) : ℚ) / 100

/-- The sort key of `get_nearby_users`: the rounded distance field. -/
def nearbyLE (a b : NearbyEntry) : Prop := a.distance ≤ b.distance

instance : DecidableRel nearbyLE :=
  fun a b => inferInstanceAs (Decidable (a.distance ≤ b.distance))

instance : IsTotal NearbyEntry nearbyLE :=
  ⟨fun a b => le_total a.distance b.distance⟩

instance : IsTrans NearbyEntry nearbyLE :=
  ⟨fun _ _ _ hab hbc => le_trans hab hbc⟩

/-- `ConnectionManager.get_nearby_users`: swap each `(lng, lat)` pair to
`(lat, lng)`, keep the users whose distance from the origin is within the
radius, record the distance rounded to two decimals, and sort ascending by
that rounded distance with Python's stable `list.sort` (modelled by the
stable insertion sort).  The geodesic distance itself is computed by the
external `geopy` library, so it enters the model as the function
parameter `dist`. -/
def get_nearby_users (dist : (ℚ × ℚ) → (ℚ × ℚ) → ℚ) (coordinates : ℚ × ℚ)
    (radius_km : ℚ) (snapshot : List (String × UserLocation)) :
    List NearbyEntry :=
  List.insertionSort nearbyLE (snapshot.filterMap (fun p =>
    if dist (coordinates.2, coordinates.1) (p.2.coordinates.2, p.2.coordinates.1)
        ≤ radius_km then
      some { user_id := p.1, coordinates := p.2.coordinates,
             distance := round2 (dist (coordinates.2, coordinates.1)
               (p.2.coordinates.2, p.2.coordinates.1)),
             timestamp := p.2.timestamp, accuracy := p.2.accuracy,
             speed := p.2.speed, heading := p.2.heading }
    else none))

/-- A concrete distance function for the seeded scenarios (taxicab on the
swapped coordinates); any distance function exhibits the same control
flow. -/
def distL1 (p q : ℚ × ℚ) : ℚ := |p.1 - q.1| + |p.2 - q.2|

theorem round2_intCast (n : ℤ) : round2 ((n : ℚ)) = n := by
  unfold round2 roundHalfEven
  have h100 : ((n : ℚ)) * 100 = (((100 * n : ℤ)) : ℚ) := by
    push_cast
    ring
  rw [h100, Int.floor_intCast]
  rw [if_pos (by norm_num)]
  push_cast
  ring

/-- Three seeded positions at distances 1 km, 4 km and 6 km from the
origin, listed out of distance order. -/
def seededSnapshot : List (String × UserLocation) :=
  [("u3", { user_id := "u3", coordinates := (6, 0), timestamp := 0 }),
   ("u1", { user_id := "u1", coordinates := (1, 0), timestamp := 0 }),
   ("u2", { user_id := "u2", coordinates := (4, 0), timestamp := 0 })]

/-- Two users at the same point, the one with the lexicographically larger
id stored first in the snapshot. -/
def tieSnapshot : List (String × UserLocation) :=
  [("b", { user_id := "b", coordinates := (0, 0), timestamp := 0 }),
   ("a", { user_id := "a", coordinates := (0, 0), timestamp := 0 })]

/-- C4 counterexample: two users at identical coordinates are both at
distance 0, yet `get_nearby_users` returns them in snapshot order
`["b", "a"]`, not in the ascending-id order `["a", "b"]` that a
tie-break by id would give — the source sorts only by the distance key
with a stable sort and has no id tie-break. -/
theorem nearby_tie_counterexample :
    (get_nearby_users distL1 (0, 0) 5 tieSnapshot).map NearbyEntry.user_id
      = ["b", "a"]
    ∧ (get_nearby_users distL1 (0, 0) 5 tieSnapshot).map NearbyEntry.distance
      = [0, 0]
    ∧ ["b", "a"] ≠ ["a", "b"] := by
  have r0 : round2 (0 : ℚ) = 0 := by simpa using round2_intCast 0
  refine ⟨?_, ?_, by decide⟩ <;>
    norm_num [get_nearby_users, tieSnapshot, distL1, List.filterMap,
      List.insertionSort, List.orderedInsert, nearbyLE, r0]

/-- C4 amended: `get_nearby_users` returns exactly the snapshot entries
whose distance from the origin is within the radius, sorted in ascending
order of the (rounded) distance; entries at equal distance keep their
snapshot order (stable sort) instead of being tie-broken by id.  Over the
three seeded positions at distances 1 km, 4 km, 6 km with radius 5, it
returns exactly the first two in ascending distance order. -/
theorem get_nearby_users_spec (dist : (ℚ × ℚ) → (ℚ × ℚ) → ℚ)
    (coordinates : ℚ × ℚ) (radius_km : ℚ)
    (snapshot : List (String × UserLocation)) :
    List.Sorted nearbyLE (get_nearby_users dist coordinates radius_km snapshot)
    ∧ (∀ e, e ∈ get_nearby_users dist coordinates radius_km snapshot ↔
        ∃ p ∈ snapshot,
          dist (coordinates.2, coordinates.1)
            (p.2.coordinates.2, p.2.coordinates.1) ≤ radius_km
          ∧ e = { user_id := p.1, coordinates := p.2.coordinates,
                  distance := round2 (dist (coordinates.2, coordinates.1)
                    (p.2.coordinates.2, p.2.coordinates.1)),
                  timestamp := p.2.timestamp, accuracy := p.2.accuracy,
                  speed := p.2.speed, heading := p.2.heading })
    ∧ (get_nearby_users distL1 (0, 0) 5 seededSnapshot).map NearbyEntry.user_id
      = ["u1", "u2"] := by
  refine ⟨List.sorted_insertionSort nearbyLE _, ?_, ?_⟩
  · intro e
    unfold get_nearby_users
    rw [(List.perm_insertionSort nearbyLE _).mem_iff, List.mem_filterMap]
    constructor
    · rintro ⟨p, hp, hf⟩
      by_cases hc : dist (coordinates.2, coordinates.1)
          (p.2.coordinates.2, p.2.coordinates.1) ≤ radius_km
      · rw [if_pos hc] at hf
        exact ⟨p, hp, hc, (Option.some.inj hf).symm⟩
      · rw [if_neg hc] at hf
        cases hf
    · rintro ⟨p, hp, hc, he⟩
      refine ⟨p, hp, ?_⟩
      rw [if_pos hc, he]
  · have r1 : round2 (1 : ℚ) = 1 := by simpa using round2_intCast 1
    have r4 : round2 (4 : ℚ) = 4 := by simpa using round2_intCast 4
    norm_num [get_nearby_users, seededSnapshot, distL1, List.filterMap,
      List.insertionSort, List.orderedInsert, nearbyLE, r1, r4]

/-- C4 amended, witness: the seeded 1 km / 4 km / 6 km scenario with
radius 5 returns exactly the two nearer users, ascending. -/
theorem get_nearby_users_spec_witness :
    (get_nearby_users distL1 (0, 0) 5 seededSnapshot).map NearbyEntry.user_id
      = ["u1", "u2"] :=
  (get_nearby_users_spec distL1 (0, 0) 5 seededSnapshot).2.2

/-- C10 witness: joining and then leaving one event leaves no event entry
behind, in particular no empty one. -/
theorem no_empty_room_invariant_witness :
    noEmptyRoom (runMOps mEmpty [MOp.join "u1" "e1", MOp.leave "u1" "e1"]) :=
  no_empty_room_invariant [MOp.join "u1" "e1", MOp.leave "u1" "e1"]
